import Mathlib

/-!
Verification of the psychrolib Rust crate (src/rust/psychrolib/src/lib.rs)
against its natural-language specification.

The crate's floating-point scalars (f64) are embedded as rationals (ℚ):
every constant in the source is a short decimal literal, and no claim under
consideration hinges on binary rounding of f64 arithmetic.

Components the specification describes but the crate does not yet implement
(the iterative solvers, the saturation-pressure model, the humidity-ratio
converter) are modelled from the specification; each such definition carries
a doc comment beginning "Modelled from the spec:".
-/

/- Global constants of lib.rs, lines 12-37. -/

def ZERO_FARENHEIT_AS_RANKINE : ℚ := 459.67

def ZERO_CELCIUS_AS_KELVIN : ℚ := 273.15

def R_DA_IP : ℚ := 53.350

def R_DA_SI : ℚ := 287.042

def MAX_ITER_COUNT : Nat := 100

def MIN_HUM_RATIO : ℚ := 1 / 10000000

def FREEZING_POINT_WATER_IP : ℚ := 32.0

def FREEZING_POINT_WATER_SI : ℚ := 0.0

def TRIPLE_POINT_WATER_IP : ℚ := 32.018

def TRIPLE_POINT_WATER_SI : ℚ := 0.01

def TOLERANCE_IP : ℚ := 0.001 * 9.0 * 5.0

def TOLERANCE_SI : ℚ := 0.001

/-- UnitSystem describes the unit system (SI or IP) in use by psychrolib. -/
inductive UnitSystem where
  | IP
  | SI
  deriving DecidableEq, Repr

/-- Psychrolib is the struct that represents the unit system and tolerance
of an instance of the library (lib.rs lines 53-56). -/
structure Psychrolib where
  units : UnitSystem
  tolerance : ℚ
  deriving DecidableEq, Repr

namespace Psychrolib

/-- `Psychrolib::new` (lib.rs lines 62-72): picks the tolerance matching the
selected unit system and builds the struct. -/
def new (units : UnitSystem) : Psychrolib :=
  let tolerance := if units = UnitSystem.IP then TOLERANCE_IP else TOLERANCE_SI
  { units := units, tolerance := tolerance }

/-- `Psychrolib::GetUnitSystem` (lib.rs lines 86-88): returns the unit system
in use. -/
def GetUnitSystem (s : Psychrolib) : UnitSystem :=
  s.units

/-- `Psychrolib::set_units` (lib.rs lines 102-104): the in-place mutation
`self.units = unit_system;` embedded as a state transformer. Only the
`units` field is assigned; `tolerance` is left as it was. -/
def set_units (s : Psychrolib) (unit_system : UnitSystem) : Psychrolib :=
  { s with units := unit_system }

end Psychrolib

/-- Helper of lib.rs lines 111-114: the body is just `t_fahrenheit`, so the
function returns its argument unchanged. -/
def get_t_rankine_from_t_fahrenheit (t_fahrenheit : ℚ) : ℚ :=
  t_fahrenheit

/-- The pairing invariant of the spec's data model: the stored tolerance is
the one belonging to the stored unit system. -/
def toleranceMatchesUnits (s : Psychrolib) : Prop :=
  s.tolerance = (if s.units = UnitSystem.IP then TOLERANCE_IP else TOLERANCE_SI)

instance (s : Psychrolib) : Decidable (toleranceMatchesUnits s) := by
  unfold toleranceMatchesUnits
  infer_instance

/-- Modelled from the spec: the convergence-failure payload of the (not yet
implemented) iterative solvers — the last best estimate and its residual. -/
structure ConvergenceError where
  estimate : ℚ
  residual : ℚ
  deriving DecidableEq, Repr

/-- Modelled from the spec: the two error kinds of the engine's error
handling design (section 7). -/
inductive PsychroError where
  | inputRange
  | convergence (err : ConvergenceError)
  deriving DecidableEq, Repr

/-- Modelled from the spec: the bounded bracketed root-finding loop shared
by the wet-bulb and dew-point solvers (sections 4.5 and 4.6), which the
crate does not yet implement. At each candidate (the bracket midpoint) the
residual is evaluated; the loop stops with a numeric answer as soon as the
residual magnitude is within tolerance, narrows the bracket by the sign of
the residual otherwise, and when the iteration budget (the fuel) is
exhausted without meeting tolerance it stops with a `ConvergenceError`
carrying the last candidate and its residual. -/
def solveLoop (tol : ℚ) (f : ℚ → ℚ) : ℚ → ℚ → Nat → Except PsychroError ℚ
  | lo, hi, 0 =>
      let mid := (lo + hi) / 2
      let r := f mid
      if |r| ≤ tol then Except.ok mid
      else Except.error (PsychroError.convergence ⟨mid, r⟩)
  | lo, hi, Nat.succ n =>
      let mid := (lo + hi) / 2
      let r := f mid
      if |r| ≤ tol then Except.ok mid
      else if 0 < r then solveLoop tol f lo mid n
      else solveLoop tol f mid hi n

/-- Modelled from the spec: the wet-bulb solver (section 4.5) runs the
bounded bracketed search with the context's tolerance and the iteration cap
`MAX_ITER_COUNT` (the loop examines one candidate per iteration, so the
initial fuel is the cap minus the first candidate). The residual function —
implied humidity ratio minus target, assembled from the saturation-pressure
model and the enthalpy balance, neither of which the crate implements — is
taken as a parameter. -/
def wetBulbSolve (ctx : Psychrolib) (f : ℚ → ℚ) (lo hi : ℚ) :
    Except PsychroError ℚ :=
  solveLoop ctx.tolerance f lo hi ( MAX_ITER_COUNT - 1)

/-- Modelled from the spec: lower end of the physically valid temperature
range for the active unit system (about −100 °C, or −148 °F). -/
def validRangeLo (u : UnitSystem) : ℚ :=
  match u with
  | UnitSystem.IP => -148
  | UnitSystem.SI => -100

/-- Modelled from the spec: upper end of the physically valid temperature
range for the active unit system (about 200 °C, or 392 °F). -/
def validRangeHi (u : UnitSystem) : ℚ :=
  match u with
  | UnitSystem.IP => 392
  | UnitSystem.SI => 200

/-- Modelled from the spec: the saturation-pressure query (section 4.2) —
outside the valid range it fails with `InputRangeError`; inside it, it
evaluates the correlation. The spec fixes the two-branch correlation's
structure but not its coefficients, so the correlation value is a
parameter. -/
def saturationPressure (corr : ℚ → ℚ) (ctx : Psychrolib) (t : ℚ) :
    Except PsychroError ℚ :=
  if t < validRangeLo ctx.units ∨ validRangeHi ctx.units < t then
    Except.error PsychroError.inputRange
  else
    Except.ok (corr t)

/-- Modelled from the spec: the dew-point solver (section 4.6) — inputs are
validated before any iteration (negative vapor pressure or out-of-range
dry-bulb temperature is an `InputRangeError`), then the bounded bracketed
search looks below the dry-bulb temperature for the temperature whose
correlation value equals the supplied vapor pressure. -/
def dewPointTemperature (corr : ℚ → ℚ) (ctx : Psychrolib)
    (vapPres dryBulb : ℚ) : Except PsychroError ℚ :=
  if vapPres < 0 ∨ dryBulb < validRangeLo ctx.units ∨
      validRangeHi ctx.units < dryBulb then
    Except.error PsychroError.inputRange
  else
    solveLoop ctx.tolerance (fun t => corr t - vapPres)
      (validRangeLo ctx.units) dryBulb ( MAX_ITER_COUNT - 1)

/-- Modelled from the spec: humidity ratio from vapor pressure (section
4.3) — the closed-form formula with the gas-constant ratio 0.621945, the
output floored at `MIN_HUM_RATIO`. -/
def humRatioFromVapPres (vapPres totalPressure : ℚ) : ℚ :=
  max MIN_HUM_RATIO ((621945 / 1000000) * vapPres / (totalPressure - vapPres))

/-- Modelled from the spec: humidity ratio from degree of saturation
(section 4.3, glossary) — the degree of saturation times the saturation
humidity ratio, the output floored at `MIN_HUM_RATIO`. -/
def humRatioFromDegSat (degSat wsat : ℚ) : ℚ :=
  max MIN_HUM_RATIO (degSat * wsat)

/-- Modelled from the spec: vapor pressure from relative humidity (section
4.3) — relative humidity times the saturation pressure value supplied by
the saturation-pressure model. -/
def vapPresFromRelHum (pws relHum : ℚ) : ℚ :=
  relHum * pws

/-- Modelled from the spec: relative humidity from vapor pressure (section
4.3) — vapor pressure divided by the saturation pressure value supplied by
the saturation-pressure model. -/
def relHumFromVapPres (pws vapPres : ℚ) : ℚ :=
  vapPres / pws

/-- Return values of the crate's public operations. -/
inductive RetVal where
  | ctxVal (s : Psychrolib)
  | unitsVal (u : UnitSystem)
  | numVal (q : ℚ)
  deriving Repr

/-- Outcome of one call: a normal return, or abrupt termination (a Rust
panic / unwinding). The embedding of each operation records which outcome
its source produces. -/
inductive CallOutcome where
  | normal (v : RetVal)
  | abrupt
  deriving Repr

/-- The public operations of the crate. -/
inductive EngineOp where
  | construct (u : UnitSystem)
  | getUnits
  | setUnits (u : UnitSystem)
  | tRankineFromFahrenheit (t : ℚ)
  deriving Repr

/-- One call of a public operation on a context. Each arm is the faithful
embedding of the corresponding function body in lib.rs; none of those
bodies contains a panicking construct, so no arm produces `abrupt`. -/
def runOp : EngineOp → Psychrolib → CallOutcome
  | EngineOp.construct u, _ => CallOutcome.normal (RetVal.ctxVal (Psychrolib.new u))
  | EngineOp.getUnits, s => CallOutcome.normal (RetVal.unitsVal (Psychrolib.GetUnitSystem s))
  | EngineOp.setUnits u, s => CallOutcome.normal (RetVal.ctxVal (Psychrolib.set_units s u))
  | EngineOp.tRankineFromFahrenheit t, _ =>
      CallOutcome.normal (RetVal.numVal (get_t_rankine_from_t_fahrenheit t))

/- ================= Helper lemmas ================= -/

/-- Every run of the bounded search ends either in a numeric result whose
residual met the tolerance, or in a `ConvergenceError` whose payload is the
last candidate paired with its residual, that residual exceeding the
tolerance. -/
theorem solveLoop_spec (tol : ℚ) (f : ℚ → ℚ) :
    ∀ (n : Nat) (lo hi : ℚ),
      (∃ t, solveLoop tol f lo hi n = Except.ok t ∧ |f t| ≤ tol) ∨
      (∃ e, solveLoop tol f lo hi n = Except.error (PsychroError.convergence e) ∧
        e.residual = f e.estimate ∧ tol < |e.residual|) := by
  intro n
  induction n with
  | zero =>
    intro lo hi
    by_cases h : |f ((lo + hi) / 2)| ≤ tol
    · exact Or.inl ⟨(lo + hi) / 2, by simp [solveLoop, h], h⟩
    · refine Or.inr ⟨⟨(lo + hi) / 2, f ((lo + hi) / 2)⟩, by simp [solveLoop, h], rfl, ?_⟩
      exact lt_of_not_le h
  | succ n ih =>
    intro lo hi
    by_cases h : |f ((lo + hi) / 2)| ≤ tol
    · exact Or.inl ⟨(lo + hi) / 2, by simp [solveLoop, h], h⟩
    · by_cases hr : 0 < f ((lo + hi) / 2)
      · have hrec := ih lo ((lo + hi) / 2)
        simpa [solveLoop, h, hr] using hrec
      · have hrec := ih ((lo + hi) / 2) hi
        simpa [solveLoop, h, hr] using hrec

/-- The bounded search never produces an `InputRangeError`. -/
theorem solveLoop_ne_inputRange (tol : ℚ) (f : ℚ → ℚ) (n : Nat) (lo hi : ℚ) :
    solveLoop tol f lo hi n ≠ Except.error PsychroError.inputRange := by
  rcases solveLoop_spec tol f n lo hi with ⟨t, ht, _⟩ | ⟨e, he, _⟩
  · simp [ht]
  · simp [he]

/- ================= Claims ================= -/

/-- Claim C1 (amended): construction from a unit-system selector does
establish the matching tolerance pair, and `GetUnitSystem` does not touch
the state; but `set_units` assigns only the `units` field and leaves
`tolerance` unchanged, so a unit-system change does not preserve the
pairing invariant. -/
theorem c1_tolerance_pairing_amended :
    (∀ u : UnitSystem, toleranceMatchesUnits (Psychrolib.new u)) ∧
    (∀ s : Psychrolib, Psychrolib.GetUnitSystem s = s.units) ∧
    (∀ (s : Psychrolib) (u : UnitSystem),
      (Psychrolib.set_units s u).units = u ∧
      (Psychrolib.set_units s u).tolerance = s.tolerance) := by
  refine ⟨?_, ?_, ?_⟩
  · intro u
    cases u <;> simp [toleranceMatchesUnits, Psychrolib.new]
  · intro s
    rfl
  · intro s u
    exact ⟨rfl, rfl⟩

/-- Claim C1 counterexample: start from the IP context and change the unit
system to SI; the resulting context's tolerance is still `TOLERANCE_IP`,
not `TOLERANCE_SI`, so the pairing invariant is not preserved by the
unit-system change. -/
theorem c1_tolerance_pairing_counterexample :
    ¬ toleranceMatchesUnits
        (Psychrolib.set_units (Psychrolib.new UnitSystem.IP) UnitSystem.SI) := by
  have hif : (if UnitSystem.SI = UnitSystem.IP then TOLERANCE_IP else TOLERANCE_SI)
      = TOLERANCE_SI := if_neg (by decide)
  simp only [toleranceMatchesUnits, Psychrolib.set_units, Psychrolib.new, hif]
  norm_num [TOLERANCE_IP, TOLERANCE_SI]

/-- Claim C2 (amended): the crate's unit-system switch is the in-place
mutator `set_units`; it rebuilds the state with the new unit system and the
old tolerance, so after switching an IP context to SI the context holds
unit system SI (not the untouched original) with the IP tolerance. -/
theorem c2_switch_in_place_amended :
    ∀ (s : Psychrolib) (u : UnitSystem),
      Psychrolib.set_units s u = { units := u, tolerance := s.tolerance } := by
  intro s u
  rfl

/-- Claim C2 counterexample: after the switch to SI, the context constructed
with IP no longer carries unit system IP — `set_units` mutates its
argument rather than returning a fresh context. -/
theorem c2_switch_counterexample :
    ¬ (Psychrolib.set_units (Psychrolib.new UnitSystem.IP) UnitSystem.SI).units
        = UnitSystem.IP := by
  decide

/-- Claim C3: any run of the wet-bulb or dew-point solver either returns a
number whose residual met the context's tolerance, or returns a
`ConvergenceError` carrying the last best estimate paired with its residual
(which still exceeds tolerance); the dew-point solver may additionally
reject invalid input before iterating. A plain numeric result is never
returned when the iteration budget runs out unsatisfied. -/
theorem c3_solver_convergence_error :
    ∀ (ctx : Psychrolib) (f corr : ℚ → ℚ) (lo hi vapPres dryBulb : ℚ),
      ((∃ t, wetBulbSolve ctx f lo hi = Except.ok t ∧ |f t| ≤ ctx.tolerance) ∨
       (∃ e, wetBulbSolve ctx f lo hi = Except.error (PsychroError.convergence e) ∧
          e.residual = f e.estimate ∧ ctx.tolerance < |e.residual|)) ∧
      ((∃ t, dewPointTemperature corr ctx vapPres dryBulb = Except.ok t ∧
          |corr t - vapPres| ≤ ctx.tolerance) ∨
       (∃ e, dewPointTemperature corr ctx vapPres dryBulb =
          Except.error (PsychroError.convergence e) ∧
          e.residual = corr e.estimate - vapPres ∧ ctx.tolerance < |e.residual|) ∨
       (dewPointTemperature corr ctx vapPres dryBulb =
          Except.error PsychroError.inputRange ∧
        (vapPres < 0 ∨ dryBulb < validRangeLo ctx.units ∨
          validRangeHi ctx.units < dryBulb))) := by
  intro ctx f corr lo hi vapPres dryBulb
  constructor
  · exact solveLoop_spec ctx.tolerance f _ lo hi
  · by_cases hv : vapPres < 0 ∨ dryBulb < validRangeLo ctx.units ∨
        validRangeHi ctx.units < dryBulb
    · exact Or.inr (Or.inr ⟨by simp [dewPointTemperature, hv], hv⟩)
    · have hle := solveLoop_spec ctx.tolerance (fun t => corr t - vapPres)
        ( MAX_ITER_COUNT - 1) (validRangeLo ctx.units) dryBulb
      rcases hle with ⟨t, ht, htol⟩ | ⟨e, he, hres, htol⟩
      · exact Or.inl ⟨t, by simp [dewPointTemperature, hv, ht], htol⟩
      · exact Or.inr (Or.inl ⟨e, by simp [dewPointTemperature, hv, he], hres, htol⟩)

/-- Claim C4: every humidity-ratio output of the converter is at least
`MIN_HUM_RATIO`, and a computed value of exactly zero (dry air) is clamped
up to exactly `MIN_HUM_RATIO`. -/
theorem c4_hum_ratio_floor :
    ∀ (vapPres totalPressure degSat wsat : ℚ),
      MIN_HUM_RATIO ≤ humRatioFromVapPres vapPres totalPressure ∧
      MIN_HUM_RATIO ≤ humRatioFromDegSat degSat wsat ∧
      humRatioFromVapPres 0 totalPressure = MIN_HUM_RATIO ∧
      humRatioFromDegSat 0 wsat = MIN_HUM_RATIO := by
  intro vapPres totalPressure degSat wsat
  refine ⟨le_max_left _ _, le_max_left _ _, ?_, ?_⟩
  · have h0 : (621945 / 1000000 : ℚ) * 0 / (totalPressure - 0) = 0 := by
      simp
    rw [humRatioFromVapPres, h0]
    exact max_eq_left (by norm_num [ MIN_HUM_RATIO])
  · rw [humRatioFromDegSat, zero_mul]
    exact max_eq_left (by norm_num [ MIN_HUM_RATIO])

/-- Claim C7: `saturationPressure` answers `InputRangeError` exactly on
temperatures outside the valid range of the active unit system (so it
neither extrapolates outside the range nor rejects inside it); the
dew-point solver can answer `InputRangeError` only from pre-iteration
validation of its inputs; and the iteration loop itself can never produce
an `InputRangeError`. -/
theorem c7_input_range_pre_iteration :
    ∀ (corr : ℚ → ℚ) (ctx : Psychrolib) (t vapPres dryBulb : ℚ),
      (saturationPressure corr ctx t = Except.error PsychroError.inputRange ↔
        (t < validRangeLo ctx.units ∨ validRangeHi ctx.units < t)) ∧
      (dewPointTemperature corr ctx vapPres dryBulb =
          Except.error PsychroError.inputRange →
        (vapPres < 0 ∨ dryBulb < validRangeLo ctx.units ∨
          validRangeHi ctx.units < dryBulb)) ∧
      (∀ (n : Nat) (lo hi : ℚ),
        solveLoop ctx.tolerance (fun x => corr x - vapPres) lo hi n ≠
          Except.error PsychroError.inputRange) := by
  intro corr ctx t vapPres dryBulb
  refine ⟨?_, ?_, ?_⟩
  · by_cases h : t < validRangeLo ctx.units ∨ validRangeHi ctx.units < t
    · simp [saturationPressure, h]
    · simp [saturationPressure, h]
  · intro hdew
    by_contra hv
    rw [dewPointTemperature, if_neg hv] at hdew
    exact solveLoop_ne_inputRange ctx.tolerance (fun x => corr x - vapPres)
      ( MAX_ITER_COUNT - 1) (validRangeLo ctx.units) dryBulb hdew
  · intro n lo hi
    exact solveLoop_ne_inputRange ctx.tolerance (fun x => corr x - vapPres) n lo hi

/-- Claim C7 witness: in the SI context, 300 (above the 200 °C upper bound)
is rejected with `InputRangeError`. -/
theorem c7_input_range_pre_iteration_witness :
    saturationPressure (fun x => x) (Psychrolib.new UnitSystem.SI) 300 =
      Except.error PsychroError.inputRange :=
  (c7_input_range_pre_iteration (fun x => x) (Psychrolib.new UnitSystem.SI)
    300 0 0).1.mpr (by right; decide)

/-- Claim C8: for every context produced by construction, any relative
humidity in [0,1] and any positive saturation-pressure value, converting
relative humidity to vapor pressure and back recovers it exactly, hence
within the context's tolerance. -/
theorem c8_rel_hum_roundtrip :
    ∀ (u : UnitSystem) (relHum pws : ℚ), 0 ≤ relHum → relHum ≤ 1 → 0 < pws →
      |relHumFromVapPres pws (vapPresFromRelHum pws relHum) - relHum| ≤
        (Psychrolib.new u).tolerance := by
  intro u relHum pws _ _ hpws
  have hne : pws ≠ 0 := ne_of_gt hpws
  have hrt : relHumFromVapPres pws (vapPresFromRelHum pws relHum) = relHum := by
    rw [relHumFromVapPres, vapPresFromRelHum, mul_div_assoc, div_self hne, mul_one]
  rw [hrt, sub_self, abs_zero]
  cases u <;> simp [Psychrolib.new] <;> norm_num [TOLERANCE_IP, TOLERANCE_SI]

/-- Claim C8 witness: the round trip at relative humidity 1/2 with
saturation pressure 1000 in the SI context. -/
theorem c8_rel_hum_roundtrip_witness :
    |relHumFromVapPres 1000 (vapPresFromRelHum 1000 (1 / 2)) - 1 / 2| ≤
      (Psychrolib.new UnitSystem.SI).tolerance :=
  c8_rel_hum_roundtrip UnitSystem.SI (1 / 2) 1000 (by norm_num) (by norm_num)
    (by norm_num)

/-- Claim C9: every public operation of the crate, on every state and
input, returns normally — no call produces abrupt termination. -/
theorem c9_total_no_abrupt :
    ∀ (op : EngineOp) (s : Psychrolib),
      ∃ v, runOp op s = CallOutcome.normal v := by
  intro op s
  cases op <;> exact ⟨_, rfl⟩

/-- Claim C10: the helper returns exactly its argument and never adds the
Fahrenheit-to-Rankine offset. -/
theorem c10_rankine_helper_identity :
    ∀ t : ℚ, get_t_rankine_from_t_fahrenheit t = t ∧
      get_t_rankine_from_t_fahrenheit t ≠ t + ZERO_FARENHEIT_AS_RANKINE := by
  intro t
  refine ⟨rfl, ?_⟩
  rw [get_t_rankine_from_t_fahrenheit]
  intro h
  have hz : ZERO_FARENHEIT_AS_RANKINE = 0 := by
    have := self_eq_add_right.mp h
    exact this
  norm_num [ZERO_FARENHEIT_AS_RANKINE] at hz

/-- Claim C10 witness: at 70 °F the helper returns 70, not 529.67. -/
theorem c10_rankine_helper_identity_witness :
    get_t_rankine_from_t_fahrenheit 70 = 70 ∧
      get_t_rankine_from_t_fahrenheit 70 ≠ 70 + ZERO_FARENHEIT_AS_RANKINE :=
  c10_rankine_helper_identity 70
